import Mathlib

/-!
Shallow embedding of the kubernetes-mesos scheduling core: the perishable
offer registry (pkg/offers/offers.go), the scheduler plugin components
binder, kubeScheduler, errorHandler and deleter (pkg/scheduler/plugin.go),
and the executor task-lifecycle entry points (the executor package).
Time is modelled as a natural-number tick count.  External collaborators
(the mesos driver, the apiserver client) enter the model as boolean or
optional outcome parameters.  Components of this repository that are not
under src (the podtask package, the queue package, the executor messages
package) are modelled from the spec where the claims need them; each such
definition carries a doc comment saying so.
-/

namespace KubernetesMesos

/-- offerListenerMaxAge constant of pkg/offers/offers.go. -/
def offerListenerMaxAge : Nat := 12

/-- deferredDeclineTtlFactor constant of pkg/offers/offers.go. -/
def deferredDeclineTtlFactor : Nat := 2

/-- Subset of a mesos offer used by offers.go for recordkeeping: the offer
id and the slave hostname. -/
structure MesosOffer where
  id : String
  hostname : String
deriving DecidableEq

/-- Perishable of offers.go: either a liveOffer (payload, expiration
deadline, int32 acquired cell) or an expiredOffer lingering in the history
(id, hostname, linger deadline). -/
inductive Perishable where
  | live (offer : MesosOffer) (expiration : Nat) (acquired : Nat)
  | expired (id : String) (hostname : String) (deadline : Nat)
deriving DecidableEq

/-- liveOffer.uid / expiredOffer.uid. -/
def Perishable.uid : Perishable → String
  | .live off _ _ => off.id
  | .expired i _ _ => i

/-- liveOffer.host / expiredOffer.host. -/
def Perishable.host : Perishable → String
  | .live off _ _ => off.hostname
  | .expired _ h _ => h

/-- HasExpired: a live offer is expired once now is past its expiration
deadline; an expiredOffer reports true always. -/
def Perishable.hasExpired (p : Perishable) (now : Nat) : Bool :=
  match p with
  | .live _ e _ => decide (e < now)
  | .expired _ _ _ => true

/-- Details: the mesos offer payload of a live offer, nil for an expired one. -/
def Perishable.details : Perishable → Option MesosOffer
  | .live off _ _ => some off
  | .expired _ _ _ => none

/-- Acquire: compare-and-swap of the acquired cell from 0 to 1, returning
whether this caller won; always false on an expiredOffer. -/
def Perishable.acquire : Perishable → Bool × Perishable
  | .live off e a => if a = 0 then (true, .live off e 1) else (false, .live off e a)
  | .expired i h d => (false, .expired i h d)

/-- Release: compare-and-swap of the acquired cell from 1 to 0; a no-op on
an expiredOffer. -/
def Perishable.release : Perishable → Perishable
  | .live off e a => if a = 1 then .live off e 0 else .live off e a
  | .expired i h d => .expired i h d

/-- RegistryConfig of offers.go restricted to the fields the modelled code
paths read: TTL and LingerTTL. -/
structure RegistryConfig where
  ttl : Nat
  lingerTTL : Nat
deriving DecidableEq

/-- offerStorage: the offers collection keyed by Perishable.uid together
with its RegistryConfig.  The deadline-oriented delay queue used by the
aging loop is not part of the modelled claims. -/
structure OfferStorage where
  config : RegistryConfig
  offers : List Perishable
deriving DecidableEq

/-- offerStorage.Get via cache.FIFO.GetByKey: first stored entry whose uid
matches. -/
def OfferStorage.get (s : OfferStorage) (id : String) : Option Perishable :=
  s.offers.find? (fun q => decide (q.uid = id))

/-- cache.FIFO.Update: replace the entry carrying the same key, appending
when the key is absent. -/
def updateByUid : List Perishable → Perishable → List Perishable
  | [], p => [p]
  | q :: rest, p => if q.uid = p.uid then p :: rest else q :: updateByUid rest p

/-- Store update keyed by uid. -/
def OfferStorage.update (s : OfferStorage) (p : Perishable) : OfferStorage :=
  { s with offers := updateByUid s.offers p }

/-- cache.FIFO.Delete: remove the entry carrying the given key. -/
def OfferStorage.removeKey (s : OfferStorage) (id : String) : OfferStorage :=
  { s with offers := s.offers.filter (fun q => !decide (q.uid = id)) }

/-- offerStorage.Add for one incoming offer: stored live with expiration
now+TTL and the acquired cell clear. -/
def OfferStorage.add (s : OfferStorage) (now : Nat) (off : MesosOffer) : OfferStorage :=
  s.update (.live off (now + s.config.ttl) 0)

/-- offerStorage.expireOffer: an offer that still has details is replaced
by a lingering expiredOffer with deadline now+LingerTTL when LingerTTL is
positive, and is deleted from storage outright when LingerTTL is zero; an
offer without details is already lingering and is left alone. -/
def OfferStorage.expireOffer (s : OfferStorage) (now : Nat) (off : Perishable) : OfferStorage :=
  match off.details with
  | some d =>
    if 0 < s.config.lingerTTL then
      s.update (.expired d.id off.host (now + s.config.lingerTTL))
    else
      s.removeKey d.id
  | none => s

/-- offerStorage.invalidateOne: acquire the offer to block other users,
then expire it; the offer is not declined. -/
def OfferStorage.invalidateOne (s : OfferStorage) (now : Nat) (offerId : String) : OfferStorage :=
  match s.get offerId with
  | none => s
  | some off =>
    let off' := (off.acquire).2
    (s.update off').expireOffer now off'

/-- Observable effects of offerStorage.Delete: whether the DeclineOffer
callback ran immediately, and the absolute deadline of the deferred
decline scheduled through time.AfterFunc when the offer was already
claimed. -/
structure DeleteFx where
  declinedNow : Bool
  deferredDeclineAt : Option Nat
deriving DecidableEq

/-- offerStorage.Delete: look the offer up; attempt Acquire to block other
consumers; while the offer still has details, decline immediately when the
Acquire won, and otherwise schedule a deferred decline at
now + deferredDeclineTtlFactor * TTL; finally expire the offer. -/
def OfferStorage.delete (s : OfferStorage) (now : Nat) (offerId : String) :
    OfferStorage × DeleteFx :=
  match s.get offerId with
  | none => (s, ⟨false, none⟩)
  | some off =>
    let r := off.acquire
    let s1 := s.update r.2
    let fx : DeleteFx :=
      if (r.2.details).isSome then
        if r.1 then ⟨true, none⟩
        else ⟨false, some (now + deferredDeclineTtlFactor * s.config.ttl)⟩
      else ⟨false, none⟩
    (s1.expireOffer now r.2, fx)

/-- Body of the deferred decline closure scheduled by offerStorage.Delete:
when its deadline fires it declines the captured offer exactly when
Acquire() succeeds at that point. -/
def deferredDecline (p : Perishable) : Bool := (p.acquire).1

/-- Acquire/Release call on a Perishable, used to describe arbitrary
interleavings of claims against one offer. -/
inductive AcqOp where
  | acq
  | rel
deriving DecidableEq

/-- Run a sequence of Acquire/Release calls against one offer, keeping the
final offer state. -/
def runOps : List AcqOp → Perishable → Perishable
  | [], p => p
  | .acq :: ops, p => runOps ops (p.acquire).2
  | .rel :: ops, p => runOps ops p.release

/-- Return values of n consecutive Acquire calls against one offer with no
intervening Release. -/
def acqResults : Nat → Perishable → List Bool
  | 0, _ => []
  | n + 1, p => (p.acquire).1 :: acqResults n (p.acquire).2

/-- The acquired cell of a live offer holds 0 or 1; an expired offer has no
cell and passes vacuously. -/
def flagOk : Perishable → Bool
  | .live _ _ a => decide (a = 0) || decide (a = 1)
  | .expired _ _ _ => true

/-- offerListener of offers.go; the accepts filter and the notify channel
are threaded through the sweep model separately, since the filter is a
function and notification is delivered by closing the channel. -/
structure OfferListener where
  id : String
  age : Nat
  sawVersion : Nat
  deadline : Nat
deriving DecidableEq

/-- Scan of the cached offer ids inside notifyListeners: true when some id
resolves through Get to a non-expired offer whose Details() the filter
accepts; the first match wins. -/
def findAcceptableOffer (s : OfferStorage) (now : Nat) (accepts : Option MesosOffer → Bool) :
    List String → Bool
  | [] => false
  | id :: rest =>
    match s.get id with
    | none => findAcceptableOffer s now accepts rest
    | some off =>
      if off.hasExpired now then findAcceptableOffer s now accepts rest
      else if accepts off.details then true
      else findAcceptableOffer s now accepts rest

/-- Outcome of one notifyListeners sweep for the popped listener: the
re-queued listener if any, and whether the notify channel was closed. -/
structure SweepOut where
  requeued : Option OfferListener
  closedNotify : Bool
deriving DecidableEq

/-- offerStorage.notifyListeners for one popped listener: when the
listener already saw the current offer-id-cache version it is re-queued
without aging; otherwise the cached ids are scanned and on the first
acceptable offer the notify channel is closed and the listener dropped; on
no match the age is bumped and the listener is re-queued only while the
bumped age is below offerListenerMaxAge. -/
def notifyListeners (s : OfferStorage) (now : Nat) (accepts : Option MesosOffer → Bool)
    (listenerDelay : Nat) (ids : List String) (version : Nat) (l : OfferListener) : SweepOut :=
  if l.sawVersion = version then
    ⟨some { l with deadline := now + listenerDelay }, false⟩
  else
    if findAcceptableOffer s now accepts ids then ⟨none, true⟩
    else
      let age' := l.age + 1
      if age' < offerListenerMaxAge then
        ⟨some { l with sawVersion := version, age := age', deadline := now + listenerDelay }, false⟩
      else ⟨none, false⟩

/-- The registry state, clock, filter, listener delay, cached ids and
cache version visible to one listener during one sweep. -/
structure SweepEnv where
  store : OfferStorage
  now : Nat
  accepts : Option MesosOffer → Bool
  listenerDelay : Nat
  ids : List String
  version : Nat

/-- Number of times a listener's notify channel gets closed over a run of
sweeps; the listener leaves the system as soon as a sweep fails to
re-queue it. -/
def runSweeps : List SweepEnv → OfferListener → Nat
  | [], _ => 0
  | e :: es, l =>
    let r := notifyListeners e.store e.now e.accepts e.listenerDelay e.ids e.version l
    (if r.closedNotify then 1 else 0) +
      match r.requeued with
      | some l' => runSweeps es l'
      | none => 0

/-- Modelled from the spec: the queue package (not under src) exposes the
Delay FIFO policies ReplaceExisting and KeepExisting. -/
inductive QueuePolicy where
  | replaceExisting
  | keepExisting
deriving DecidableEq

/-- State of a go channel used purely as a one-shot signal: notification is
delivered by closing it, nothing is ever sent. -/
inductive ChanState where
  | isOpen
  | isClosed
deriving DecidableEq

/-- What offerStorage.Listen hands back and registers: the returned
channel (none models a nil go channel) and the enqueued listener with the
policy used to enqueue it. -/
structure ListenResult where
  channel : Option ChanState
  enqueued : Option (OfferListener × QueuePolicy)
deriving DecidableEq

/-- offerStorage.Listen: a nil filter yields a nil channel and registers
nothing; otherwise a fresh open channel is made and a listener with age 0,
sawVersion 0 and deadline now+ListenerDelay is offered to the listener
DelayFIFO with the ReplaceExisting policy. -/
def listen (now listenerDelay : Nat) (id : String)
    (f : Option (Option MesosOffer → Bool)) : ListenResult :=
  match f with
  | none => ⟨none, none⟩
  | some _ => ⟨some .isOpen, some (⟨id, 0, 0, now + listenerDelay⟩, .replaceExisting)⟩

/-- Modelled from the spec: podtask.StateType (the podtask package is not
under src); the states are Pending, Running, Finished and Unknown. -/
inductive StateType where
  | statePending
  | stateRunning
  | stateFinished
  | stateUnknown
deriving DecidableEq

/-- Modelled from the spec: the fields of a registered podtask.T record
that the plugin.go code paths under scrutiny consult - its state, the
Launched flag, whether an offer has been accepted, and the UID of the pod
the task was created from. -/
structure TaskRec where
  state : StateType
  launched : Bool
  hasAcceptedOffer : Bool
  podUID : String
deriving DecidableEq

/-- Outcome of kubeScheduler.Schedule: placement ran on a freshly
registered task, placement ran on the existing task, or one of the error
returns (noSuchPod, the out-of-sync task error, the already-launched
error, the not-pending error). -/
inductive SchedOutcome where
  | placedNew
  | placedExisting
  | errNoSuchPod
  | errTaskOutOfSync
  | errAlreadyLaunched
  | errNotPending
deriving DecidableEq

/-- kubeScheduler.Schedule under the scheduler lock: with no registered
task, a polled DELETE event aborts with noSuchPod and otherwise a fresh
task is registered and placed; with a registered Pending task, a pod-UID
mismatch aborts with the out-of-sync error, the Launched flag aborts with
the already-launched error, and otherwise placement re-runs on the
existing task; a non-Pending task aborts with the not-pending error. -/
def schedule (lookup : Option TaskRec) (deleteEventPolled : Bool) (podUID : String) :
    SchedOutcome :=
  match lookup with
  | none => if deleteEventPolled then .errNoSuchPod else .placedNew
  | some task =>
    match task.state with
    | .statePending =>
      if podUID ≠ task.podUID then .errTaskOutOfSync
      else if task.launched then .errAlreadyLaunched
      else .placedExisting
    | _ => .errNotPending

/-- The scheduling errors distinguished by errorHandler.handleSchedulingError:
noSuchPodErr, noSuitableOffersErr, and anything else. -/
inductive SchedErr where
  | noSuchPod
  | noSuitableOffers
  | other (msg : String)
deriving DecidableEq

/-- Observable effects of errorHandler.handleSchedulingError: the policy
used to requeue the pod into podQueue, if it was requeued at all, and
whether a breakout listener was registered on the offer registry. -/
structure EHFx where
  requeue : Option QueuePolicy
  listenerArmed : Bool
deriving DecidableEq

/-- errorHandler.handleSchedulingError: noSuchPod is terminal; a missing
task mapping drops the pod; a Pending task with the Launched flag set
drops the pod; a non-Pending task drops the pod; otherwise the pod is
requeued with KeepExisting and a listener is armed exactly when the error
is noSuitableOffers. -/
def handleSchedulingError (e : SchedErr) (lookup : Option TaskRec) : EHFx :=
  match e with
  | .noSuchPod => ⟨none, false⟩
  | _ =>
    match lookup with
    | none => ⟨none, false⟩
    | some task =>
      match task.state with
      | .statePending =>
        if task.launched then ⟨none, false⟩
        else ⟨some .keepExisting, decide (e = .noSuitableOffers)⟩
      | _ => ⟨none, false⟩

/-- The breakout listener filter registered by handleSchedulingError,
evaluated against the task's state at notification time: for a Pending
task it returns true when the task is not Launched and AcceptOffer holds
(the accepts argument); for any other state it returns true so that the
listener stops checking for matching offers. -/
def breakoutFilter (st : StateType) (launched accepts : Bool) : Bool :=
  match st with
  | .statePending => !launched && accepts
  | _ => true

/-- The filter characterization asserted by claim C4: acceptance exactly
when the task is still Pending, not Launched, and AcceptOffer holds. -/
def c4FilterAsClaimed : Prop :=
  ∀ st launched accepts,
    breakoutFilter st launched accepts
      = (decide (st = StateType.statePending) && !launched && accepts)

/-- Actions of deleter.deleteOne in program order: dequeue from podQueue
by pod uid, resolve the pod key in the task registry, release the task's
offer, clear the task info, unregister the task, set the Deleted flag,
and ask the driver to kill the task. -/
inductive DelAct where
  | dequeue (uid : String)
  | lookupTask
  | releaseOffer
  | clearTaskInfo
  | unregister
  | setDeleted
  | kill (tid : String)
deriving DecidableEq

/-- Errors deleter.deleteOne can return: noSuchPodErr, noSuchTaskErr, or a
driver error surfaced by KillTask. -/
inductive DelErr where
  | noSuchPod
  | noSuchTask
  | driver (msg : String)
deriving DecidableEq

/-- deleter.deleteOne under the scheduler lock, as the ordered action
trace plus the returned error.  killRes is the error the driver KillTask
call would report. -/
def deleteOne (uid tid : String) (lookup : Option TaskRec) (killRes : Option String) :
    List DelAct × Option DelErr :=
  match lookup with
  | none => ([.dequeue uid, .lookupTask], some .noSuchPod)
  | some task =>
    match task.state with
    | .statePending =>
      if !task.launched then
        ([.dequeue uid, .lookupTask]
            ++ (if task.hasAcceptedOffer then [.releaseOffer, .clearTaskInfo] else [])
            ++ [.unregister],
          none)
      else
        ([.dequeue uid, .lookupTask, .setDeleted, .kill tid], killRes.map .driver)
    | .stateRunning =>
      ([.dequeue uid, .lookupTask, .setDeleted, .kill tid], killRes.map .driver)
    | _ => ([.dequeue uid, .lookupTask], some .noSuchTask)

/-- Modelled from the spec: the slice of a podtask.T that binder.bind
reads and writes - the task id, the accepted offer (task.Offer), whether
task info is populated, task.Pod.Status.Host, and the Launched flag. -/
structure BTask where
  tid : String
  offer : Option Perishable
  taskInfoSet : Bool
  podHost : String
  launched : Bool
deriving DecidableEq

/-- Modelled from the spec: task.HasAcceptedOffer() holds when the offer
field is populated. -/
def BTask.hasAcceptedOffer (t : BTask) : Bool := t.offer.isSome

/-- Modelled from the spec: task.GetOfferId() is the id of the accepted
offer. -/
def BTask.getOfferId (t : BTask) : String :=
  match t.offer with
  | some p => p.uid
  | none => ""

/-- Modelled from the spec: task.ClearTaskInfo() clears the task info. -/
def BTask.clearTaskInfo (t : BTask) : BTask := { t with taskInfoSet := false }

/-- task.Offer.Release() as seen through the task: the acquired cell of
the accepted offer is released. -/
def BTask.releaseOffer (t : BTask) : BTask := { t with offer := t.offer.map Perishable.release }

/-- The shared state binder.bind touches: the task and the offer registry. -/
structure BindSt where
  task : BTask
  reg : OfferStorage
deriving DecidableEq

/-- Release of the task's offer object as observed by the registry: in go
the registry entry and task.Offer alias the same object, so when the
stored entry is that same offer its acquired cell is released too. -/
def regReleaseAliased (reg : OfferStorage) (off : Perishable) : OfferStorage :=
  match reg.get off.uid with
  | some p => if p = off then reg.update p.release else reg
  | none => reg

/-- Failure tail of binder.bind: release the task's offer claim, clear the
task info, and surface an error. -/
def bindFail (st : BindSt) : BindSt × Bool :=
  let reg' :=
    match st.task.offer with
    | some off => regReleaseAliased st.reg off
    | none => st.reg
  (⟨(st.task.releaseOffer).clearTaskInfo, reg'⟩, true)

/-- binder.bind, assuming the caller holds the scheduler lock and the task
is Pending: sanity-check the accepted offer, fail when the registry no
longer has a non-expired entry for it, then run prepareTaskForLaunch and
driver.LaunchTasks (their outcomes are the prepareOk/launchOk
parameters); on success invalidate the offer id, record the binding host
and set the Launched flag; any failure releases the claim, clears the
task info and returns an error.  The returned boolean is true when bind
errors. -/
def bind (now : Nat) (st : BindSt) (host : String) (prepareOk launchOk : Bool) :
    BindSt × Bool :=
  if !st.task.hasAcceptedOffer then (st, true)
  else
    let offerId := st.task.getOfferId
    match st.reg.get offerId with
    | none => bindFail st
    | some off =>
      if off.hasExpired now then bindFail st
      else if prepareOk then
        if launchOk then
          (⟨{ st.task with podHost := host, launched := true },
              st.reg.invalidateOne now offerId⟩, false)
        else bindFail st
      else bindFail st

/-- Subset of a mesos TaskInfo the executor consults: the task id and the
opaque payload bytes. -/
structure TaskInfo where
  taskId : String
  data : List Nat
deriving DecidableEq

/-- kuberTask of the executor: the task info plus the pod name, empty
until the binding succeeds. -/
structure KuberTask where
  mesosTaskInfo : TaskInfo
  podName : String
deriving DecidableEq

/-- Decoded bound-pod payload; only its identity matters to the modelled
entry point. -/
structure BoundPod where
  name : String
  inNamespace : String
deriving DecidableEq

/-- Modelled from the spec: messages.ExecutorUnregistered of the executor
messages package (not under src). -/
def msgExecutorUnregistered : String := "ExecutorUnregistered"

/-- Modelled from the spec: messages.UnmarshalTaskDataFailure of the
executor messages package (not under src). -/
def msgUnmarshalTaskDataFailure : String := "UnmarshalTaskDataFailure"

/-- Observable effects of KubernetesExecutor.LaunchTask: the status
updates sent (state, message), the resulting task table, and whether the
asynchronous launch continuation was started (the binding POST happens
inside that continuation). -/
structure LaunchFx where
  statuses : List (String × String)
  tasks : List (String × KuberTask)
  continuationStarted : Bool
deriving DecidableEq

/-- KubernetesExecutor.LaunchTask: short-circuit when done; reject with one
TASK_FAILED/ExecutorUnregistered status while not connected; reject with
one TASK_FAILED/UnmarshalTaskDataFailure status when the payload does not
decode (the decoded parameter); silently ignore a duplicate task id;
otherwise record the task with an empty pod name and start the async
launch continuation. -/
def LaunchTask (done connected : Bool) (decoded : Option BoundPod)
    (tasks : List (String × KuberTask)) (ti : TaskInfo) : LaunchFx :=
  if done then ⟨[], tasks, false⟩
  else if !connected then ⟨[("TASK_FAILED", msgExecutorUnregistered)], tasks, false⟩
  else
    match decoded with
    | none => ⟨[("TASK_FAILED", msgUnmarshalTaskDataFailure)], tasks, false⟩
    | some _ =>
      if (tasks.find? (fun r => decide (r.1 = ti.taskId))).isSome then ⟨[], tasks, false⟩
      else ⟨[], tasks ++ [(ti.taskId, ⟨ti, ""⟩)], true⟩

/-- Go strings.HasPre fix over byte strings, with the argument order of the
go call sites: goHasPre s pre holds when pre is a leading byte run of s. -/
def goHasPre : List Nat → List Nat → Bool
  | _, [] => true
  | [], _ :: _ => false
  | a :: as, b :: bs => if a = b then goHasPre as bs else false

/-- The ten bytes of the literal "task-lost:". -/
def taskLostTag : List Nat := [116, 97, 115, 107, 45, 108, 111, 115, 116, 58]

/-- Guard of the task-lost branch of KubernetesExecutor.FrameworkMessage as
written in the source: the literal "task-lost:" is passed as the string
and the message as the candidate leading run, conjoined with a length
check on the message. -/
def fmTaskLostGuard (message : List Nat) : Bool :=
  goHasPre taskLostTag message && decide (10 < message.length)

/-- KubernetesExecutor.FrameworkMessage reduced to its one observable
effect: whether reportLostTask is invoked for the given message, given the
done and connected states. -/
def frameworkMessageFiresTaskLost (done connected : Bool) (message : List Nat) : Bool :=
  if done then false
  else if !connected then false
  else if fmTaskLostGuard message then !(message.drop 10).isEmpty
  else false

/-- Filter accepting every offer, used to exercise the listener sweep. -/
def acceptAll : Option MesosOffer → Bool := fun _ => true

/-- Filter rejecting every offer, used to exercise the listener sweep. -/
def rejectAll : Option MesosOffer → Bool := fun _ => false

/-! Helper lemmas. -/

/-- A leading byte run is no longer than the string containing it. -/
theorem goHasPre_length (s pre : List Nat) (h : goHasPre s pre = true) :
    pre.length ≤ s.length := by
  induction pre generalizing s with
  | nil => simp
  | cons b bs ih =>
    cases s with
    | nil => simp [goHasPre] at h
    | cons a as =>
      by_cases hab : a = b
      · simp only [goHasPre, if_pos hab] at h
        simpa using ih as h
      · simp [goHasPre, hab] at h

/-- Acquire and Release keep the acquired cell of a live offer inside the
set of legal values. -/
theorem flagOk_runOps (ops : List AcqOp) (p : Perishable) (h : flagOk p = true) :
    flagOk (runOps ops p) = true := by
  induction ops generalizing p with
  | nil => simpa [runOps] using h
  | cons op ops ih =>
    cases op with
    | acq =>
      simp only [runOps]
      apply ih
      cases p with
      | live off e a =>
        by_cases ha : a = 0
        · simp [Perishable.acquire, ha, flagOk]
        · simpa [Perishable.acquire, ha, flagOk] using h
      | expired i hh d => simpa [Perishable.acquire] using h
    | rel =>
      simp only [runOps]
      apply ih
      cases p with
      | live off e a =>
        by_cases ha : a = 1
        · simp [Perishable.release, ha, flagOk]
        · simpa [Perishable.release, ha, flagOk] using h
      | expired i hh d => simpa [Perishable.release] using h

/-- Acquire calls against an already-claimed live offer all lose. -/
theorem acqResults_claimed (n : Nat) (off : MesosOffer) (e : Nat) :
    (acqResults n (Perishable.live off e 1)).count true = 0 := by
  induction n with
  | zero => rfl
  | succ n ih => simpa [acqResults, Perishable.acquire] using ih

/-! Claim theorems. -/

/-- C9: the guard of the task-lost branch of
KubernetesExecutor.FrameworkMessage is unsatisfiable - the string literal
"task-lost:" and the message are passed in the wrong order, so the guard
requires the message to be a leading run of the 10-byte literal while also
being longer than 10 bytes - hence FrameworkMessage never invokes
reportLostTask for any message and any connection state. -/
theorem executor_frameworkMessage_taskLost_unreachable :
    (∀ message : List Nat, fmTaskLostGuard message = false)
    ∧ (∀ done connected : Bool, ∀ message : List Nat,
        frameworkMessageFiresTaskLost done connected message = false) := by
  have hg : ∀ message : List Nat, fmTaskLostGuard message = false := by
    intro msg
    unfold fmTaskLostGuard
    cases h : goHasPre taskLostTag msg with
    | false => simp
    | true =>
      have hlen := goHasPre_length taskLostTag msg h
      have hno : ¬ (10 < msg.length) := by
        simp [taskLostTag] at hlen
        omega
      simp [hno]
  refine ⟨hg, ?_⟩
  intro done connected msg
  unfold frameworkMessageFiresTaskLost
  simp [hg]

/-- C10: offerStorage.Listen with a nil filter returns a nil channel and
registers no listener; with a non-nil filter it returns a fresh open
channel and enqueues a listener (age 0, version 0, deadline
now+ListenerDelay) with the ReplaceExisting policy. -/
theorem offers_listen_nil_vs_fresh :
    (∀ now d id, listen now d id none = ⟨none, none⟩)
    ∧ (∀ now d id f, listen now d id (some f)
        = ⟨some .isOpen, some (⟨id, 0, 0, now + d⟩, .replaceExisting)⟩) :=
  ⟨fun _ _ _ => rfl, fun _ _ _ _ => rfl⟩

/-- C6: the acquired cell of a live offer only ever holds 0 or 1 across any
sequence of Acquire/Release calls started from a fresh offer; Acquire is a
compare-and-set from 0 to 1 returning whether the caller won, so among
n+1 consecutive Acquire calls on a fresh offer exactly one wins; Release
resets 1 to 0; an expired offer never acquires, ignores Release, and has
nil Details; a live offer's Details is its payload. -/
theorem offers_acquire_release_semantics :
    (∀ ops off e, flagOk (runOps ops (Perishable.live off e 0)) = true)
    ∧ (∀ off e a, (Perishable.live off e a).acquire
        = (decide (a = 0), Perishable.live off e (if a = 0 then 1 else a)))
    ∧ (∀ n off e, (acqResults (n + 1) (Perishable.live off e 0)).count true = 1)
    ∧ (∀ off e, (Perishable.live off e 1).release = Perishable.live off e 0)
    ∧ (∀ i h d, (Perishable.expired i h d).acquire = (false, Perishable.expired i h d)
        ∧ (Perishable.expired i h d).release = Perishable.expired i h d
        ∧ (Perishable.expired i h d).details = none)
    ∧ (∀ off e a, (Perishable.live off e a).details = some off) := by
  refine ⟨?_, ?_, ?_, ?_, ?_, ?_⟩
  · intro ops off e
    exact flagOk_runOps ops _ (by simp [flagOk])
  · intro off e a
    by_cases ha : a = 0 <;> simp [Perishable.acquire, ha]
  · intro n off e
    simpa [acqResults, Perishable.acquire] using acqResults_claimed n off e
  · intro off e
    simp [Perishable.release]
  · intro i h d
    exact ⟨rfl, rfl, rfl⟩
  · intro off e a
    rfl

/-- C3: kubeScheduler.Schedule with no registered task and a polled DELETE
event returns noSuchPod without registering anything; with a registered
Pending, not Launched task whose pod UID matches it re-runs placement on
the existing task; a UID mismatch, the Launched flag, or a non-Pending
state each abort with an error and no placement. -/
theorem kubeScheduler_schedule_cases :
    (∀ u, schedule none true u = .errNoSuchPod)
    ∧ (∀ d hao u, schedule (some ⟨.statePending, false, hao, u⟩) d u = .placedExisting)
    ∧ (∀ d l hao u1 u2, u2 ≠ u1 →
        schedule (some ⟨.statePending, l, hao, u1⟩) d u2 = .errTaskOutOfSync)
    ∧ (∀ d hao u, schedule (some ⟨.statePending, true, hao, u⟩) d u = .errAlreadyLaunched)
    ∧ (∀ d l hao u1 u2,
        schedule (some ⟨.stateRunning, l, hao, u1⟩) d u2 = .errNotPending
        ∧ schedule (some ⟨.stateFinished, l, hao, u1⟩) d u2 = .errNotPending
        ∧ schedule (some ⟨.stateUnknown, l, hao, u1⟩) d u2 = .errNotPending) := by
  refine ⟨fun u => rfl, ?_, ?_, ?_, ?_⟩
  · intro d hao u
    simp [schedule]
  · intro d l hao u1 u2 hne
    simp [schedule, hne]
  · intro d hao u
    simp [schedule]
  · intro d l hao u1 u2
    exact ⟨rfl, rfl, rfl⟩

/-- C3 witness: the out-of-sync branch at a concrete UID mismatch. -/
theorem kubeScheduler_schedule_cases_witness :
    schedule (some ⟨.statePending, false, true, "uid-a"⟩) false "uid-b" = .errTaskOutOfSync :=
  kubeScheduler_schedule_cases.2.2.1 false false true "uid-a" "uid-b" (by decide)

/-- C4 counterexample: the claimed filter characterization fails - the
registered breakout filter returns true for a task that is no longer
Pending (concretely: state Running, not Launched, AcceptOffer false),
where the claim demands false. -/
theorem errorHandler_filter_claim_false : ¬ c4FilterAsClaimed := by
  intro h
  have hx := h .stateRunning false false
  simp [breakoutFilter] at hx

/-- C4 amended: noSuchPod is terminal (nothing requeued, no listener); a
missing task mapping, a Pending task with Launched set, and a non-Pending
task each drop the pod; otherwise the pod is requeued with KeepExisting
and a listener is armed exactly when the error is noSuitableOffers, whose
filter accepts an offer when the task is still Pending, not Launched and
AcceptOffer holds, and also accepts unconditionally when the task is no
longer Pending (retiring the listener). -/
theorem errorHandler_handleSchedulingError_cases :
    (∀ lookup, handleSchedulingError .noSuchPod lookup = ⟨none, false⟩)
    ∧ (∀ e, handleSchedulingError e none = ⟨none, false⟩)
    ∧ (∀ e hao u, handleSchedulingError e (some ⟨.statePending, true, hao, u⟩) = ⟨none, false⟩)
    ∧ (∀ e l hao u,
        handleSchedulingError e (some ⟨.stateRunning, l, hao, u⟩) = ⟨none, false⟩
        ∧ handleSchedulingError e (some ⟨.stateFinished, l, hao, u⟩) = ⟨none, false⟩
        ∧ handleSchedulingError e (some ⟨.stateUnknown, l, hao, u⟩) = ⟨none, false⟩)
    ∧ (∀ hao u, handleSchedulingError .noSuitableOffers (some ⟨.statePending, false, hao, u⟩)
        = ⟨some .keepExisting, true⟩)
    ∧ (∀ m hao u, handleSchedulingError (.other m) (some ⟨.statePending, false, hao, u⟩)
        = ⟨some .keepExisting, false⟩)
    ∧ (∀ l a, breakoutFilter .statePending l a = (!l && a))
    ∧ (∀ l a, breakoutFilter .stateRunning l a = true
        ∧ breakoutFilter .stateFinished l a = true
        ∧ breakoutFilter .stateUnknown l a = true) := by
  refine ⟨fun lookup => rfl, ?_, ?_, ?_, ?_, ?_, fun l a => rfl, fun l a => ⟨rfl, rfl, rfl⟩⟩
  · intro e
    cases e <;> rfl
  · intro e hao u
    cases e <;> simp [handleSchedulingError]
  · intro e l hao u
    cases e <;> exact ⟨rfl, rfl, rfl⟩
  · intro hao u
    rfl
  · intro m hao u
    simp [handleSchedulingError]

/-- C5: deleter.deleteOne always dequeues the pod by uid before consulting
the task registry; with no task it returns noSuchPod; for a Pending,
not-Launched task it releases the offer and clears the task info when an
offer was accepted, unregisters the task, and returns nil with no KillTask
call; for a Pending-and-Launched or Running task it sets the Deleted flag
and calls KillTask, surfacing the driver result; any other state returns
noSuchTask. -/
theorem deleter_deleteOne_cases :
    (∀ uid tid lookup killRes, ((deleteOne uid tid lookup killRes).1).head? = some (.dequeue uid))
    ∧ (∀ uid tid killRes,
        deleteOne uid tid none killRes = ([.dequeue uid, .lookupTask], some .noSuchPod))
    ∧ (∀ uid tid killRes hao u,
        deleteOne uid tid (some ⟨.statePending, false, hao, u⟩) killRes
          = ([.dequeue uid, .lookupTask]
              ++ (if hao then [.releaseOffer, .clearTaskInfo] else []) ++ [.unregister], none)
        ∧ DelAct.kill tid ∉ (deleteOne uid tid (some ⟨.statePending, false, hao, u⟩) killRes).1)
    ∧ (∀ uid tid killRes hao u l,
        deleteOne uid tid (some ⟨.statePending, true, hao, u⟩) killRes
          = ([.dequeue uid, .lookupTask, .setDeleted, .kill tid], killRes.map .driver)
        ∧ deleteOne uid tid (some ⟨.stateRunning, l, hao, u⟩) killRes
          = ([.dequeue uid, .lookupTask, .setDeleted, .kill tid], killRes.map .driver))
    ∧ (∀ uid tid killRes l hao u,
        deleteOne uid tid (some ⟨.stateFinished, l, hao, u⟩) killRes
          = ([.dequeue uid, .lookupTask], some .noSuchTask)
        ∧ deleteOne uid tid (some ⟨.stateUnknown, l, hao, u⟩) killRes
          = ([.dequeue uid, .lookupTask], some .noSuchTask)) := by
  refine ⟨?_, fun uid tid killRes => rfl, ?_, ?_, ?_⟩
  · intro uid tid lookup killRes
    match lookup with
    | none => rfl
    | some ⟨st, l, hao, u⟩ => cases st <;> cases l <;> cases hao <;> rfl
  · intro uid tid killRes hao u
    refine ⟨by cases hao <;> rfl, ?_⟩
    cases hao <;> simp [deleteOne]
  · intro uid tid killRes hao u l
    exact ⟨rfl, rfl⟩
  · intro uid tid killRes l hao u
    exact ⟨rfl, rfl⟩

/-- C8: KubernetesExecutor.LaunchTask while not done: when not connected
it sends exactly one TASK_FAILED/ExecutorUnregistered status and records
nothing; on decode failure it sends exactly one
TASK_FAILED/UnmarshalTaskDataFailure status and records nothing; on a
duplicate task id it sends nothing, records nothing and starts no
continuation (so no binding POST happens); otherwise it inserts the
record with an empty pod name and starts the async launch continuation. -/
theorem executor_launchTask_cases :
    (∀ dec tasks ti, LaunchTask false false dec tasks ti
        = ⟨[("TASK_FAILED", msgExecutorUnregistered)], tasks, false⟩)
    ∧ (∀ tasks ti, LaunchTask false true none tasks ti
        = ⟨[("TASK_FAILED", msgUnmarshalTaskDataFailure)], tasks, false⟩)
    ∧ (∀ pod tasks ti, (tasks.find? (fun r => decide (r.1 = ti.taskId))).isSome = true →
        LaunchTask false true (some pod) tasks ti = ⟨[], tasks, false⟩)
    ∧ (∀ pod tasks ti, tasks.find? (fun r => decide (r.1 = ti.taskId)) = none →
        LaunchTask false true (some pod) tasks ti
          = ⟨[], tasks ++ [(ti.taskId, ⟨ti, ""⟩)], true⟩) := by
  refine ⟨fun dec tasks ti => rfl, fun tasks ti => rfl, ?_, ?_⟩
  · intro pod tasks ti hdup
    simp [LaunchTask, hdup]
  · intro pod tasks ti habs
    simp [LaunchTask, habs]

/-- C8 witness: duplicate and fresh task ids at a concrete table. -/
theorem executor_launchTask_cases_witness :
    LaunchTask false true (some ⟨"p1", "default"⟩) [("t1", ⟨⟨"t1", []⟩, ""⟩)] ⟨"t1", []⟩
      = ⟨[], [("t1", ⟨⟨"t1", []⟩, ""⟩)], false⟩
    ∧ LaunchTask false true (some ⟨"p1", "default"⟩) [] ⟨"t1", []⟩
      = ⟨[], [("t1", ⟨⟨"t1", []⟩, ""⟩)], true⟩ :=
  ⟨executor_launchTask_cases.2.2.1 ⟨"p1", "default"⟩ [("t1", ⟨⟨"t1", []⟩, ""⟩)] ⟨"t1", []⟩
      (by decide),
    executor_launchTask_cases.2.2.2 ⟨"p1", "default"⟩ [] ⟨"t1", []⟩ (by decide)⟩

/-- A sweep that closed the notify channel never re-queues the listener. -/
theorem notifyListeners_closed_drop (s : OfferStorage) (now : Nat)
    (accepts : Option MesosOffer → Bool) (d : Nat) (ids : List String) (v : Nat)
    (l : OfferListener)
    (hc : (notifyListeners s now accepts d ids v l).closedNotify = true) :
    (notifyListeners s now accepts d ids v l).requeued = none := by
  unfold notifyListeners at hc ⊢
  by_cases h1 : l.sawVersion = v
  · simp [h1] at hc
  · by_cases h2 : findAcceptableOffer s now accepts ids
    · simp [h1, h2]
    · by_cases h3 : l.age + 1 < offerListenerMaxAge <;> simp [h1, h2, h3] at hc

/-- Over its whole lifetime a listener's notify channel is closed at most
once: once a sweep closes it the listener is gone from the queue. -/
theorem runSweeps_le_one (envs : List SweepEnv) : ∀ l, runSweeps envs l ≤ 1 := by
  induction envs with
  | nil => intro l; simp [runSweeps]
  | cons e es ih =>
    intro l
    rcases hc : notifyListeners e.store e.now e.accepts e.listenerDelay e.ids e.version l
      with ⟨req, cl⟩
    cases cl with
    | false =>
      cases req with
      | some l' => simpa [runSweeps, hc] using ih l'
      | none => simp [runSweeps, hc]
    | true =>
      have h0 := notifyListeners_closed_drop e.store e.now e.accepts e.listenerDelay e.ids
        e.version l
      rw [hc] at h0
      have hreq : req = none := h0 rfl
      subst hreq
      simp [runSweeps, hc]

/-- C7: a popped listener whose sawVersion equals the current cache version
is re-queued with its age unchanged; otherwise, when the scan finds an
acceptable non-expired offer the notify channel is closed and the listener
is not re-queued; when nothing matches the age is bumped and the listener
is re-queued exactly while the bumped age stays below offerListenerMaxAge,
the channel staying open; and over any run of sweeps the channel is closed
at most once. -/
theorem offers_notifyListeners_cases :
    (∀ s now f d ids v id age dl,
        notifyListeners s now f d ids v ⟨id, age, v, dl⟩
          = ⟨some ⟨id, age, v, now + d⟩, false⟩)
    ∧ (∀ s now f d ids v l, l.sawVersion ≠ v → findAcceptableOffer s now f ids = true →
        notifyListeners s now f d ids v l = ⟨none, true⟩)
    ∧ (∀ s now f d ids v l, l.sawVersion ≠ v → findAcceptableOffer s now f ids = false →
        l.age + 1 < offerListenerMaxAge →
        notifyListeners s now f d ids v l = ⟨some ⟨l.id, l.age + 1, v, now + d⟩, false⟩)
    ∧ (∀ s now f d ids v l, l.sawVersion ≠ v → findAcceptableOffer s now f ids = false →
        offerListenerMaxAge ≤ l.age + 1 →
        notifyListeners s now f d ids v l = ⟨none, false⟩)
    ∧ (∀ envs l, runSweeps envs l ≤ 1) := by
  refine ⟨?_, ?_, ?_, ?_, fun envs l => runSweeps_le_one envs l⟩
  · intro s now f d ids v id age dl
    simp [notifyListeners]
  · intro s now f d ids v l h1 h2
    simp [notifyListeners, h1, h2]
  · intro s now f d ids v l h1 h2 h3
    simp [notifyListeners, h1, h2, h3]
  · intro s now f d ids v l h1 h2 h3
    have h4 : ¬ (l.age + 1 < offerListenerMaxAge) := by omega
    simp [notifyListeners, h1, h2, h4]

/-- C7 witness: one live offer, concrete listeners exercising the
match/no-match/garbage-collection branches. -/
theorem offers_notifyListeners_cases_witness :
    notifyListeners ⟨⟨10, 0⟩, [.live ⟨"o1", "h1"⟩ 10 0]⟩ 0 acceptAll 5 ["o1"] 3 ⟨"p", 0, 0, 0⟩
      = ⟨none, true⟩
    ∧ notifyListeners ⟨⟨10, 0⟩, [.live ⟨"o1", "h1"⟩ 10 0]⟩ 0 rejectAll 5 ["o1"] 3 ⟨"p", 0, 0, 0⟩
      = ⟨some ⟨"p", 1, 3, 5⟩, false⟩
    ∧ notifyListeners ⟨⟨10, 0⟩, [.live ⟨"o1", "h1"⟩ 10 0]⟩ 0 rejectAll 5 ["o1"] 3 ⟨"p", 11, 0, 0⟩
      = ⟨none, false⟩ :=
  ⟨offers_notifyListeners_cases.2.1 ⟨⟨10, 0⟩, [.live ⟨"o1", "h1"⟩ 10 0]⟩ 0 acceptAll 5 ["o1"] 3
      ⟨"p", 0, 0, 0⟩ (by decide) (by decide),
    offers_notifyListeners_cases.2.2.1 ⟨⟨10, 0⟩, [.live ⟨"o1", "h1"⟩ 10 0]⟩ 0 rejectAll 5 ["o1"]
      3 ⟨"p", 0, 0, 0⟩ (by decide) (by decide) (by decide),
    offers_notifyListeners_cases.2.2.2.1 ⟨⟨10, 0⟩, [.live ⟨"o1", "h1"⟩ 10 0]⟩ 0 rejectAll 5
      ["o1"] 3 ⟨"p", 11, 0, 0⟩ (by decide) (by decide) (by decide)⟩

/-- Updating by key makes the entry retrievable under its uid. -/
theorem find?_updateByUid_self (l : List Perishable) (p : Perishable) :
    (updateByUid l p).find? (fun q => decide (q.uid = p.uid)) = some p := by
  induction l with
  | nil => simp [updateByUid]
  | cons q rest ih =>
    by_cases h : q.uid = p.uid
    · simp [updateByUid, h]
    · simp [updateByUid, h, ih]

/-- OfferStorage.update then get of the same key returns the new entry. -/
theorem get_update_self (s : OfferStorage) (p : Perishable) :
    (s.update p).get p.uid = some p :=
  find?_updateByUid_self s.offers p

/-- A key filtered out of a list is not found in it. -/
theorem find?_filter_ne (id : String) (l : List Perishable) :
    (l.filter (fun q => !decide (q.uid = id))).find? (fun q => decide (q.uid = id)) = none := by
  induction l with
  | nil => rfl
  | cons q rest ih =>
    by_cases h : q.uid = id
    · simp [List.filter_cons, h, ih]
    · simp [List.filter_cons, h, ih]

/-- OfferStorage.removeKey then get of the same key returns nothing. -/
theorem get_removeKey_self (s : OfferStorage) (id : String) :
    (s.removeKey id).get id = none :=
  find?_filter_ne id s.offers

/-- Updating the store keeps its configuration. -/
theorem config_update (s : OfferStorage) (p : Perishable) :
    (s.update p).config = s.config := rfl

/-- C2 counterexample: for an id present only as an expired-lingering entry
(deadline 5) with LingerTTL = 7 at now = 100, Delete neither declines nor
schedules a deferred decline, and the stored entry keeps its old deadline
instead of being replaced by one with deadline now+LingerTTL. -/
theorem offers_delete_claim_counterexample :
    (OfferStorage.get ⟨⟨10, 7⟩, [.expired "o1" "h1" 5]⟩ "o1").isSome = true
    ∧ OfferStorage.delete ⟨⟨10, 7⟩, [.expired "o1" "h1" 5]⟩ 100 "o1"
        = (⟨⟨10, 7⟩, [.expired "o1" "h1" 5]⟩, ⟨false, none⟩)
    ∧ ¬ ((OfferStorage.delete ⟨⟨10, 7⟩, [.expired "o1" "h1" 5]⟩ 100 "o1").1.get "o1"
          = some (.expired "o1" "h1" (100 + 7))) :=
  ⟨by decide, by decide, by decide⟩

/-- C2 amended: for an id present in the registry as a live offer, Delete
first attempts Acquire; an unclaimed offer (cell 0) is declined
immediately, while a claimed one (cell 1) schedules a deferred decline at
now + 2*TTL whose body declines exactly when Acquire succeeds at that
point; the offer is then expired, so with LingerTTL = 0 it is removed and
Get misses, while with LingerTTL positive an expired-lingering entry with
deadline now+LingerTTL replaces it.  (An id present only as an
expired-lingering entry is left unchanged with nothing declined or
deferred.) -/
theorem offers_delete_live_cases (now : Nat) (s : OfferStorage) (offerId : String)
    (m : MesosOffer) (e : Nat) (b : Bool)
    (hget : s.get offerId = some (.live m e (Bool.rec 0 1 b))) :
    ((s.delete now offerId).2
        = if b then ⟨false, some (now + deferredDeclineTtlFactor * s.config.ttl)⟩
          else ⟨true, none⟩)
    ∧ (deferredDecline (.live m e 0) = true ∧ deferredDecline (.live m e 1) = false
        ∧ (∀ i h d, deferredDecline (.expired i h d) = false))
    ∧ (s.config.lingerTTL = 0 → (s.delete now offerId).1.get offerId = none)
    ∧ (0 < s.config.lingerTTL → (s.delete now offerId).1.get offerId
        = some (.expired m.id m.hostname (now + s.config.lingerTTL))) := by
  have hm : m.id = offerId := by
    have hp := List.find?_some (by simpa [OfferStorage.get] using hget)
    simpa [Perishable.uid] using of_decide_eq_true hp
  have hdel : s.delete now offerId
      = ((s.update (.live m e 1)).expireOffer now (.live m e 1),
          if b then ⟨false, some (now + deferredDeclineTtlFactor * s.config.ttl)⟩
          else ⟨true, none⟩) := by
    cases b <;>
      simp [OfferStorage.delete, hget, Perishable.acquire, Perishable.details]
  refine ⟨by rw [hdel], ⟨rfl, rfl, fun i h d => rfl⟩, ?_, ?_⟩
  · intro h0
    rw [hdel]
    simp only [OfferStorage.expireOffer, Perishable.details, config_update, h0]
    rw [← hm]
    simpa using get_removeKey_self (OfferStorage.update s (.live m e 1)) m.id
  · intro h0
    rw [hdel]
    simp only [OfferStorage.expireOffer, Perishable.details, Perishable.host, config_update]
    rw [if_pos h0, ← hm]
    exact get_update_self (OfferStorage.update s (.live m e 1))
      (.expired m.id m.hostname (now + s.config.lingerTTL))

/-- C2 witness: a fresh live offer with LingerTTL = 0 is declined
immediately and removed from storage. -/
theorem offers_delete_live_cases_witness :
    (OfferStorage.delete ⟨⟨10, 0⟩, [.live ⟨"o1", "h1"⟩ 50 0]⟩ 100 "o1").2 = ⟨true, none⟩
    ∧ (OfferStorage.delete ⟨⟨10, 0⟩, [.live ⟨"o1", "h1"⟩ 50 0]⟩ 100 "o1").1.get "o1" = none := by
  have h := offers_delete_live_cases 100 ⟨⟨10, 0⟩, [.live ⟨"o1", "h1"⟩ 50 0]⟩ "o1" ⟨"o1", "h1"⟩
    50 false (by decide)
  exact ⟨by simpa using h.1, h.2.2.1 rfl⟩

/-- C1: binder.bind on a Pending task that has accepted an offer: when the
registry entry for the accepted offer is missing or expired, or when
prepareTaskForLaunch or driver.LaunchTasks fails, bind releases the
task's offer claim, clears the task info, keeps Launched unset and
returns an error; when launch succeeds it invalidates the offer id in the
registry, records the binding host in task.Pod.Status.Host, sets
Launched and returns nil. -/
theorem binder_bind_atomic (now : Nat) (reg : OfferStorage) (off : Perishable)
    (tid host ph : String) (ts pOk lOk : Bool) :
    (((reg.get off.uid).all (fun p => p.hasExpired now) = true ∨ pOk = false ∨ lOk = false) →
      bind now ⟨⟨tid, some off, ts, ph, false⟩, reg⟩ host pOk lOk
        = (⟨⟨tid, some off.release, false, ph, false⟩, regReleaseAliased reg off⟩, true))
    ∧ (∀ p, reg.get off.uid = some p → p.hasExpired now = false →
      bind now ⟨⟨tid, some off, ts, ph, false⟩, reg⟩ host true true
        = (⟨⟨tid, some off, ts, host, true⟩, reg.invalidateOne now off.uid⟩, false)) := by
  have hfail : bindFail ⟨⟨tid, some off, ts, ph, false⟩, reg⟩
      = (⟨⟨tid, some off.release, false, ph, false⟩, regReleaseAliased reg off⟩, true) := by
    simp [bindFail, BTask.releaseOffer, BTask.clearTaskInfo]
  constructor
  · intro h
    cases hg : reg.get off.uid with
    | none =>
      simp [bind, BTask.hasAcceptedOffer, BTask.getOfferId, hg, hfail]
    | some p =>
      by_cases he : p.hasExpired now = true
      · simp [bind, BTask.hasAcceptedOffer, BTask.getOfferId, hg, he, hfail]
      · have hor : pOk = false ∨ lOk = false := by
          rcases h with hexp | h1 | h1
          · rw [hg] at hexp
            simp [Option.all] at hexp
            exact absurd hexp he
          · exact Or.inl h1
          · exact Or.inr h1
        have he' : p.hasExpired now = false := by
          cases hx : p.hasExpired now
          · rfl
          · exact absurd hx he
        rcases hor with h1 | h1
        · subst h1
          simp [bind, BTask.hasAcceptedOffer, BTask.getOfferId, hg, he', hfail]
        · subst h1
          cases pOk <;>
            simp [bind, BTask.hasAcceptedOffer, BTask.getOfferId, hg, he', hfail]
  · intro p hg hexp
    simp [bind, BTask.hasAcceptedOffer, BTask.getOfferId, hg, hexp]

/-- C1 witness: a missing registry entry makes bind fail with the claim
released and the info cleared, and a present unexpired entry lets bind
succeed with host and Launched set and the offer invalidated. -/
theorem binder_bind_atomic_witness :
    bind 0 ⟨⟨"t1", some (.live ⟨"o1", "h1"⟩ 5 0), true, "", false⟩, ⟨⟨10, 0⟩, []⟩⟩ "h1" true true
      = (⟨⟨"t1", some ((Perishable.live ⟨"o1", "h1"⟩ 5 0).release), false, "", false⟩,
          regReleaseAliased ⟨⟨10, 0⟩, []⟩ (.live ⟨"o1", "h1"⟩ 5 0)⟩, true)
    ∧ bind 0 ⟨⟨"t1", some (.live ⟨"o1", "h1"⟩ 50 1), true, "", false⟩,
          ⟨⟨10, 0⟩, [.live ⟨"o1", "h1"⟩ 50 1]⟩⟩ "h1" true true
      = (⟨⟨"t1", some (.live ⟨"o1", "h1"⟩ 50 1), true, "h1", true⟩,
          OfferStorage.invalidateOne ⟨⟨10, 0⟩, [.live ⟨"o1", "h1"⟩ 50 1]⟩ 0
            (Perishable.live ⟨"o1", "h1"⟩ 50 1).uid⟩, false) :=
  ⟨(binder_bind_atomic 0 ⟨⟨10, 0⟩, []⟩ (.live ⟨"o1", "h1"⟩ 5 0) "t1" "h1" "" true true true).1
      (Or.inl (by decide)),
    (binder_bind_atomic 0 ⟨⟨10, 0⟩, [.live ⟨"o1", "h1"⟩ 50 1]⟩ (.live ⟨"o1", "h1"⟩ 50 1) "t1"
        "h1" "" true true true).2 (.live ⟨"o1", "h1"⟩ 50 1) (by decide) (by decide)⟩

/-- C4 witness: the noSuitableOffers branch at a concrete pending task. -/
theorem errorHandler_handleSchedulingError_cases_witness :
    handleSchedulingError .noSuitableOffers (some ⟨.statePending, false, true, "u"⟩)
      = ⟨some .keepExisting, true⟩ :=
  errorHandler_handleSchedulingError_cases.2.2.2.2.1 true "u"

/-- C5 witness: the missing-task branch at concrete ids. -/
theorem deleter_deleteOne_cases_witness :
    deleteOne "uid1" "tid1" none none = ([.dequeue "uid1", .lookupTask], some .noSuchPod) :=
  deleter_deleteOne_cases.2.1 "uid1" "tid1" none

/-- C6 witness: three consecutive Acquire calls on a fresh offer produce
exactly one winner. -/
theorem offers_acquire_release_semantics_witness :
    (acqResults 3 (Perishable.live ⟨"o1", "h1"⟩ 5 0)).count true = 1 :=
  offers_acquire_release_semantics.2.2.1 2 ⟨"o1", "h1"⟩ 5

/-- C9 witness: a concrete message does not fire the task-lost branch. -/
theorem executor_frameworkMessage_taskLost_unreachable_witness :
    frameworkMessageFiresTaskLost false true [116, 97, 115] = false :=
  executor_frameworkMessage_taskLost_unreachable.2 false true [116, 97, 115]

/-- C10 witness: a nil filter at concrete arguments yields a nil channel
and registers nothing. -/
theorem offers_listen_nil_vs_fresh_witness :
    listen 3 4 "pod1" none = ⟨none, none⟩ :=
  offers_listen_nil_vs_fresh.1 3 4 "pod1"

end KubernetesMesos
